import Mathlib

/-!
Verification of the job-dashboard backend (`src/main.py`) against its
specification.

The SQLite `jobs` table is modelled as a list of `Job` records and each
API handler as a pure function over that list.  External collaborators
(the `jobspy` scraper, the CSV file) enter as explicit parameters: the
provider call is an `Except` value (error = the call raised) and the CSV
file an `Option (List Row)` (`none` = file absent).  Dates are carried
as already-normalised `YYYY-MM-DD` strings, so the
`pd.to_datetime`/`strftime` round-trip is the identity on them; SQLite
`REAL` salary columns are modelled as integers since no claim touches
salary arithmetic, and `NaN`-valued provider titles are outside the
model (titles are plain strings).
-/

/-- Lower-case a character sequence: models Python `str.lower()`, the
`case=False` flag of `Series.str.contains`, and SQLite's ASCII case
folding for `LIKE`. -/
def lowerChars (l : List Char) : List Char := l.map Char.toLower

/-- Python `str.strip()`: drop leading and trailing whitespace. -/
def stripChars (l : List Char) : List Char :=
  ((l.dropWhile Char.isWhitespace).reverse.dropWhile Char.isWhitespace).reverse

/-- Python `str.split(',')` (splitting the empty string yields one empty
field, as in Python). -/
def splitComma : List Char → List (List Char)
  | [] => [[]]
  | c :: cs =>
    let rest := splitComma cs
    if c = ',' then [] :: rest
    else
      match rest with
      | [] => [[c]]
      | g :: gs => (c :: g) :: gs

/-- `p` occurs at the very start of `s` (literal character match). -/
def prefixHere : List Char → List Char → Bool
  | [], _ => true
  | _ :: _, [] => false
  | a :: ps, b :: cs => a = b && prefixHere ps cs

/-- `p` occurs somewhere inside `s` as a literal substring. -/
def substrFind (p : List Char) : List Char → Bool
  | [] => prefixHere p []
  | c :: cs => prefixHere p (c :: cs) || substrFind p cs

/-- Token of the regular expression `'|'.join(keywords)` that
`scrape_new_jobs` hands to `Series.str.contains`.  Only the constructs
that occur in the keyword lists under study are modelled: literal
characters and the `.` wildcard (the one metacharacter present in the
default list, inside `"sr."`).  Keywords containing other regex
metacharacters are outside the model. -/
inductive RTok where
  | lit (c : Char)
  | dot
deriving DecidableEq, Repr

def tokMatch : RTok → Char → Bool
  | .lit a, c => a = c
  | .dot, _ => true

/-- The token sequence matches a prefix of `s`. -/
def reHere : List RTok → List Char → Bool
  | [], _ => true
  | _ :: _, [] => false
  | t :: ts, c :: cs => tokMatch t c && reHere ts cs

/-- Unanchored regex search (Python `re.search` semantics for a pattern
of literals and `.`): the token sequence matches somewhere in `s`. -/
def reFind (p : List RTok) : List Char → Bool
  | [] => reHere p []
  | c :: cs => reHere p (c :: cs) || reFind p cs

/-- Compile one exclude keyword to the regex it denotes inside the
joined pattern: `.` is a wildcard, every other character is literal. -/
def toPattern (k : List Char) : List RTok :=
  k.map (fun c => if c = '.' then RTok.dot else RTok.lit c)

/-- The fixed default seniority exclusion list of `scrape_new_jobs`. -/
def defaultKeywords : List String :=
  ["senior", "sr.", "sr", "lead", "principal", "staff", "manager",
   "architect", "head", "director"]

/-- Keyword list used by the exclusion filter: the caller-supplied
comma-separated keywords, each stripped and lower-cased, else the
default list (`scrape_new_jobs`, lines 205-208). -/
def parseKeywords : Option String → List (List Char)
  | some s => (splitComma s.data).map (fun k => lowerChars (stripChars k))
  | none => defaultKeywords.map (fun k => k.data)

/-- The exclusion test the code performs:
`jobs_df['title'].str.contains('|'.join(keywords), case=False)`, i.e. a
case-insensitive REGEX search of the alternation of the keywords. -/
def titleExcluded (kws : List (List Char)) (title : String) : Bool :=
  kws.any (fun k => reFind (toPattern k) (lowerChars title.data))

/-- The exclusion test as the SPEC words it: the title contains some
keyword as a case-insensitive literal substring.  Stated from the
spec's words, for comparison with `titleExcluded`, which is taken from
the code. -/
def titleExcludedSpec (kws : List (List Char)) (title : String) : Bool :=
  kws.any (fun k => substrFind k (lowerChars title.data))

/-- One row of the `jobs` table, per the schema in `init_db`. -/
structure Job where
  id : Nat
  site : String
  title : String
  company : String
  location : String
  job_type : String
  date_posted : Option String
  job_url : String
  salary_min : Option Int
  salary_max : Option Int
  salary_source : Option String
  is_remote : Bool
  checked : Bool
  status : String
  notes : String
  applied_at : Option String
  created_at : String
deriving DecidableEq, Repr

/-- The `jobs` table. -/
abbrev Store := List Job

/-- Body of `PATCH /api/jobs/{id}` (the `JobUpdate` pydantic model). -/
structure JobUpdate where
  checked : Option Bool := none
  status : Option String := none
  notes : Option String := none
deriving DecidableEq, Repr

instance {ε α : Type} [DecidableEq ε] [DecidableEq α] :
    DecidableEq (Except ε α) := fun x y =>
  match x, y with
  | .error a, .error b =>
    if h : a = b then .isTrue (h ▸ rfl)
    else .isFalse (fun hh => h (by injection hh))
  | .ok a, .ok b =>
    if h : a = b then .isTrue (h ▸ rfl)
    else .isFalse (fun hh => h (by injection hh))
  | .error _, .ok _ => .isFalse (fun hh => Except.noConfusion hh)
  | .ok _, .error _ => .isFalse (fun hh => Except.noConfusion hh)

/-- HTTP error outcomes raised by the handlers. -/
inductive ApiError where
  | notFound (detail : String)
  | badRequest (detail : String)
  | serverError (detail : String)
deriving DecidableEq, Repr

/-- Field-by-field effect of the one-row `UPDATE jobs SET ...` that
`update_job` assembles: each supplied field is written; supplying
`status` additionally writes `applied_at` — today's date when the new
status is `"applied"`, `NULL` otherwise (lines 142-151). -/
def applyUpdate (u : JobUpdate) (today : String) (j : Job) : Job :=
  let j1 :=
    match u.checked with
    | some b => { j with checked := b }
    | none => j
  let j2 :=
    match u.status with
    | some s =>
      { j1 with status := s,
                applied_at := if s = "applied" then some today else none }
    | none => j1
  match u.notes with
  | some n => { j2 with notes := n }
  | none => j2

/-- `update_job` (PATCH handler): an empty update set is rejected with
400 before any SQL runs; otherwise the row with the given id is
updated; 404 when no row matches.  `today` stands for
`datetime.now().strftime('%Y-%m-%d')`. -/
def update_job (job_id : Nat) (u : JobUpdate) (today : String) (db : Store) :
    Except ApiError Store :=
  if u.checked = none ∧ u.status = none ∧ u.notes = none then
    .error (.badRequest "No updates provided")
  else if db.any (fun j => j.id == job_id) then
    .ok (db.map (fun j => if j.id == job_id then applyUpdate u today j else j))
  else
    .error (.notFound "Job not found")

/-- `delete_job` (DELETE handler): removes the row with the given id;
404 when absent. -/
def delete_job (job_id : Nat) (db : Store) : Except ApiError Store :=
  if db.any (fun j => j.id == job_id) then
    .ok (db.filter (fun j => j.id != job_id))
  else
    .error (.notFound "Job not found")

/-- Token of a SQLite `LIKE` pattern. -/
inductive LTok where
  | lit (c : Char)
  | anyOne
  | anySeq
deriving DecidableEq, Repr

/-- `%` matches any sequence, `_` any single character, the rest are
literal. -/
def likeTok (c : Char) : LTok :=
  if c = '%' then .anySeq else if c = '_' then .anyOne else .lit c

/-- SQLite `LIKE` matching of a whole string against a tokenised
pattern. -/
def likeMatch : List LTok → List Char → Bool
  | [], [] => true
  | [], _ :: _ => false
  | .anySeq :: ps, s =>
    likeMatch ps s ||
      (match s with
       | [] => false
       | _ :: cs => likeMatch (.anySeq :: ps) cs)
  | .anyOne :: _, [] => false
  | .anyOne :: ps, _ :: cs => likeMatch ps cs
  | .lit _ :: _, [] => false
  | .lit a :: ps, c :: cs => a = c && likeMatch ps cs
termination_by p s => (p.length, s.length)

/-- The `field LIKE '%' || search || '%'` test of `get_jobs`, under
SQLite's default ASCII-case-insensitive `LIKE` collation. -/
def likeSearch (search : String) (field : String) : Bool :=
  likeMatch ((lowerChars ('%' :: (search.data ++ ['%']))).map likeTok)
    (lowerChars field.data)

/-- Row filter of `get_jobs` (lines 103-117): a `status` of NULL, `""`
or the sentinel `"all"` adds no clause (Python truthiness plus the
explicit `!= "all"` check); `checked` is an exact boolean match; a
non-empty `search` is a case-insensitive `LIKE` over title, company and
location. -/
def jobMatches (status : Option String) (checked : Option Bool)
    (search : Option String) (j : Job) : Bool :=
  (match status with
   | some s => if s ≠ "" ∧ s ≠ "all" then j.status == s else true
   | none => true) &&
  (match checked with
   | some b => j.checked == b
   | none => true) &&
  (match search with
   | some s =>
     if s ≠ "" then
       likeSearch s j.title || likeSearch s j.company || likeSearch s j.location
     else true
   | none => true)

/-- Strict lexicographic order on character sequences by code point:
the order SQLite's binary TEXT collation induces on the (ASCII) date
and timestamp strings stored here. -/
def charListLt : List Char → List Char → Bool
  | [], [] => false
  | [], _ :: _ => true
  | _ :: _, [] => false
  | a :: as, b :: bs =>
    if a.toNat = b.toNat then charListLt as bs else decide (a.toNat < b.toNat)

/-- Reflexive lexicographic order on character sequences. -/
def charListLe : List Char → List Char → Bool
  | [], _ => true
  | _ :: _, [] => false
  | a :: as, b :: bs =>
    if a.toNat = b.toNat then charListLe as bs else decide (a.toNat < b.toNat)

/-- `ORDER BY date_posted DESC, created_at DESC` under SQLite ordering:
NULL is smaller than every TEXT value, so a NULL `date_posted` sorts
last in descending order; ties fall through to `created_at`
descending. -/
def jobLe (a b : Job) : Bool :=
  match a.date_posted, b.date_posted with
  | some da, some dbv =>
    if da = dbv then charListLe b.created_at.data a.created_at.data
    else charListLt dbv.data da.data
  | some _, none => true
  | none, some _ => false
  | none, none => charListLe b.created_at.data a.created_at.data

/-- `jobLe` as a relation, for `List.Sorted`. -/
def JobOrd (a b : Job) : Prop := jobLe a b = true

instance : DecidableRel JobOrd := fun a b =>
  inferInstanceAs (Decidable (jobLe a b = true))

/-- `get_jobs` (GET handler): filter, order, and return every matching
row together with the count — no LIMIT or OFFSET is issued. -/
def get_jobs (status : Option String) (checked : Option Bool)
    (search : Option String) (db : Store) : List Job × Nat :=
  let rows := (db.filter (jobMatches status checked search)).insertionSort JobOrd
  (rows, rows.length)

/-- One row of the provider result (the `scrape_jobs` DataFrame) or of
the import CSV, restricted to the columns the handlers read. -/
structure Row where
  site : String
  title : String
  company : String
  location : String
  job_type : String
  date_posted : Option String
  job_url : String
  min_amount : Option Int
  max_amount : Option Int
  salary_source : Option String
  is_remote : Bool
deriving DecidableEq, Repr

/-- The job record the scrape insert writes for one provider row
(`INSERT OR IGNORE` of `scrape_new_jobs`): schema defaults give
`checked = 0`, `status = 'new'`, `notes = ''`, NULL `applied_at`;
`id` (AUTOINCREMENT) and `created_at` (CURRENT_TIMESTAMP) are
store-assigned. -/
def rowToJob (id : Nat) (created : String) (r : Row) : Job :=
  { id := id, site := r.site, title := r.title, company := r.company,
    location := r.location, job_type := r.job_type,
    date_posted := r.date_posted, job_url := r.job_url,
    salary_min := r.min_amount, salary_max := r.max_amount,
    salary_source := r.salary_source, is_remote := r.is_remote,
    checked := false, status := "new", notes := "",
    applied_at := none, created_at := created }

/-- The record `import_csv` writes: its INSERT omits the
`salary_source` column, which therefore stays NULL. -/
def rowToJobCsv (id : Nat) (created : String) (r : Row) : Job :=
  { rowToJob id created r with salary_source := none }

/-- One `INSERT OR IGNORE INTO jobs ...`: on a `job_url` unique-key
conflict the statement succeeds, inserts nothing, and leaves the
existing row untouched; no `IntegrityError` is raised. -/
def insertRow (mk : Nat → String → Row → Job) (created : String)
    (db : Store) (nid : Nat) (r : Row) : Store × Nat :=
  if db.any (fun j => j.job_url == r.job_url) then (db, nid)
  else (db ++ [mk nid created r], nid + 1)

/-- The per-row insert loop shared by `scrape_new_jobs` (lines 238-272)
and `import_csv` (lines 328-359): each row is written with
`INSERT OR IGNORE` and `added += 1` runs afterwards.  Because
`OR IGNORE` swallows the unique-key conflict, the
`except sqlite3.IntegrityError` branch that would run `skipped += 1`
is unreachable: `added` counts every row, inserted or not, and
`skipped` stays 0.  Returns (store, next id, added, skipped). -/
def insertLoop (mk : Nat → String → Row → Job) (created : String) :
    List Row → Store → Nat → Store × Nat × Nat × Nat
  | [], db, nid => (db, nid, 0, 0)
  | r :: rs, db, nid =>
    let p := insertRow mk created db nid r
    let q := insertLoop mk created rs p.1 p.2
    (q.1, q.2.1, q.2.2.1 + 1, q.2.2.2)

/-- `sort_values(by='date_posted', ascending=False)` on the provider
frame: dates descending, with missing/unparseable dates (`NaT`) placed
last (pandas' default `na_position='last'`). -/
def rowLe (a b : Row) : Bool :=
  match a.date_posted, b.date_posted with
  | some da, some dbv => charListLe dbv.data da.data
  | some _, none => true
  | none, some _ => false
  | none, none => true

/-- `rowLe` as a relation, for `List.insertionSort`. -/
def RowOrd (a b : Row) : Prop := rowLe a b = true

instance : DecidableRel RowOrd := fun a b =>
  inferInstanceAs (Decidable (rowLe a b = true))

/-- JSON body returned by `POST /api/scrape`.  The zero-result
short-circuit returns only `added` and `skipped`, so `deleted` and
`total_found` are optional. -/
structure ScrapeResult where
  added : Nat
  skipped : Nat
  deleted : Option Nat
  total_found : Option Nat
deriving DecidableEq, Repr

/-- `scrape_new_jobs` (POST /api/scrape), lines 172-280.  The external
`scrape_jobs` call enters as `providerResult` (`.error` = the call
raised).  `nid` is the next AUTOINCREMENT id and `created` the
CURRENT_TIMESTAMP of this run.  Returns the HTTP outcome together with
the store state after the call. -/
def scrape_new_jobs (excludeKeywords : Option String) (resultsWanted : Nat)
    (providerResult : Except String (List Row)) (created : String)
    (db : Store) (nid : Nat) :
    Except ApiError ScrapeResult × Store × Nat :=
  match providerResult with
  | .error e => (.error (.serverError ("Scraping failed: " ++ e)), db, nid)
  | .ok rows =>
    if rows.isEmpty then
      (.ok { added := 0, skipped := 0, deleted := none, total_found := none },
       db, nid)
    else
      let kws := parseKeywords excludeKeywords
      let filtered := rows.filter (fun r => !titleExcluded kws r.title)
      let sortedRows := filtered.insertionSort RowOrd
      let truncated := sortedRows.take resultsWanted
      let preserved :=
        (db.filter (fun j => j.status != "new")).map (fun j => j.job_url)
      let deleted := (db.filter (fun j => j.status == "new")).length
      let db1 := db.filter (fun j => j.status != "new")
      let finalRows := truncated.filter (fun r => !preserved.contains r.job_url)
      let q := insertLoop rowToJob created finalRows db1 nid
      (.ok { added := q.2.2.1, skipped := q.2.2.2, deleted := some deleted,
             total_found := some finalRows.length },
       q.1, q.2.1)

/-- `import_csv` (POST /api/import-csv), lines 317-361: 404 when the
fixed CSV file is absent; otherwise the same `INSERT OR IGNORE` loop as
the scraper, with no filtering and no deletion, reporting `added`. -/
def import_csv (csvRows : Option (List Row)) (created : String)
    (db : Store) (nid : Nat) : Except ApiError Nat × Store × Nat :=
  match csvRows with
  | none => (.error (.notFound "CSV file not found"), db, nid)
  | some rows =>
    let q := insertLoop rowToJobCsv created rows db nid
    (.ok q.2.2.1, q.1, q.2.1)

/-- One store-mutating API call, with its external inputs. -/
inductive Op where
  | patch (job_id : Nat) (u : JobUpdate) (today : String)
  | del (job_id : Nat)
  | scrape (excludeKeywords : Option String) (resultsWanted : Nat)
      (providerResult : Except String (List Row)) (created : String)
  | importCsv (csvRows : Option (List Row)) (created : String)

/-- Effect of one call on the store and the AUTOINCREMENT counter (an
HTTP error leaves both as they were). -/
def stepOp (st : Store × Nat) : Op → Store × Nat
  | .patch job_id u today =>
    match update_job job_id u today st.1 with
    | .ok db2 => (db2, st.2)
    | .error _ => st
  | .del job_id =>
    match delete_job job_id st.1 with
    | .ok db2 => (db2, st.2)
    | .error _ => st
  | .scrape ek rw pr created =>
    let q := scrape_new_jobs ek rw pr created st.1 st.2
    (q.2.1, q.2.2)
  | .importCsv rows created =>
    let q := import_csv rows created st.1 st.2
    (q.2.1, q.2.2)

/-- Run a sequence of API calls. -/
def runOps (st : Store × Nat) : List Op → Store × Nat
  | [] => st
  | op :: ops => runOps (stepOp st op) ops

/-- No two rows of the store share a `job_url` — the `UNIQUE`
constraint of `init_db`. -/
def urlsNodup (db : Store) : Prop := (db.map (fun j => j.job_url)).Nodup

/-- A provider/CSV row with the given title and listing URL (the other
columns are fixed innocuous values). -/
def mkRow (t u : String) : Row :=
  { site := "indeed", title := t, company := "acme", location := "remote",
    job_type := "fulltime", date_posted := some "2026-01-01", job_url := u,
    min_amount := none, max_amount := none, salary_source := some "",
    is_remote := false }

/-- A stored record used as a concrete test fixture. -/
def job0 : Job :=
  { id := 1, site := "indeed", title := "engineer", company := "acme",
    location := "remote", job_type := "fulltime", date_posted := none,
    job_url := "u9", salary_min := none, salary_max := none,
    salary_source := none, is_remote := false, checked := false,
    status := "new", notes := "", applied_at := none,
    created_at := "2026-01-01 00:00:00" }

/-- The update that marks a job as applied. -/
def updApplied : JobUpdate := { status := some "applied" }

/-- A short concrete sequence of API calls (import, scrape, patch). -/
def ops0 : List Op :=
  [Op.importCsv (some [mkRow "engineer" "u1", mkRow "developer" "u2"]) "t1",
   Op.scrape none 10 (.ok [mkRow "engineer" "u1", mkRow "tester" "u3"]) "t2",
   Op.patch 0 updApplied "2026-02-03"]

/-- A user-curated record: status has been moved off `"new"`. -/
def jobApplied : Job :=
  { job0 with id := 3, job_url := "u1", status := "applied",
              applied_at := some "2026-01-15" }

/-- C5: if the external provider invocation raises, `scrape_new_jobs`
surfaces the failure as a 500 error and performs no mutation at all —
the store (and the id counter) after the failed call equal their
pre-call state. -/
theorem c5_provider_failure_aborts_without_mutation (ek : Option String)
    (rw : Nat) (e created : String) (db : Store) (nid : Nat) :
    scrape_new_jobs ek rw (.error e) created db nid =
      (.error (.serverError ("Scraping failed: " ++ e)), db, nid) := rfl

/-- C9: if the provider returns zero records, `scrape_new_jobs`
short-circuits, reporting added = 0 and skipped = 0 with no `deleted`
count, and leaves the store (including every `status = "new"` record)
unchanged. -/
theorem c9_zero_rows_short_circuit (ek : Option String) (rw : Nat)
    (created : String) (db : Store) (nid : Nat) :
    scrape_new_jobs ek rw (.ok []) created db nid =
      (.ok { added := 0, skipped := 0, deleted := none, total_found := none },
       db, nid) := rfl

/-- C6: an update supplying no fields fails with a 400 ValidationError
and leaves every record in the store unchanged. -/
theorem c6_empty_update_rejected (job_id : Nat) (today : String)
    (db : Store) (nid : Nat) :
    update_job job_id {} today db = .error (.badRequest "No updates provided") ∧
    stepOp (db, nid) (.patch job_id {} today) = (db, nid) := by
  refine ⟨by simp [update_job], ?_⟩
  simp [stepOp, update_job]

/-- C10: a `status` filter equal to the empty string behaves exactly
like no status filter at all, and exactly like the sentinel `"all"`:
the empty string is never applied as an exact-match filter. -/
theorem c10_empty_status_is_no_filter (checked : Option Bool)
    (search : Option String) (db : Store) :
    get_jobs (some "") checked search db = get_jobs none checked search db ∧
    get_jobs (some "") checked search db = get_jobs (some "all") checked search db := by
  have h1 : db.filter (jobMatches (some "") checked search) =
      db.filter (jobMatches none checked search) :=
    List.filter_congr (fun j _ => by simp [jobMatches])
  have h2 : db.filter (jobMatches (some "") checked search) =
      db.filter (jobMatches (some "all") checked search) :=
    List.filter_congr (fun j _ => by simp [jobMatches])
  constructor
  · simp only [get_jobs, h1]
  · simp only [get_jobs, h2]

/-- C1: the claim fails on the code.  Because the insert uses
`INSERT OR IGNORE`, a duplicate `job_url` raises no `IntegrityError`,
so the `skipped += 1` branch is dead and `added += 1` runs for the
duplicate as well: a reconciliation batch whose two rows share one URL
reports added = 2, skipped = 0 while the store gains a single row, and
a CSV import whose row duplicates an existing record reports
added = 1 while the store is unchanged. -/
theorem c1_duplicates_counted_as_added :
    (scrape_new_jobs none 10
        (.ok [mkRow "engineer" "u1", mkRow "developer" "u1"]) "t0" [] 0).1 =
      .ok { added := 2, skipped := 0, deleted := some 0, total_found := some 2 } ∧
    ((scrape_new_jobs none 10
        (.ok [mkRow "engineer" "u1", mkRow "developer" "u1"]) "t0" [] 0).2.1).map
        (fun j => j.job_url) = ["u1"] ∧
    (import_csv (some [mkRow "tester" "u1"]) "t1"
        [rowToJob 0 "t0" (mkRow "engineer" "u1")] 1).1 = .ok 1 ∧
    (import_csv (some [mkRow "tester" "u1"]) "t1"
        [rowToJob 0 "t0" (mkRow "engineer" "u1")] 1).2.1 =
      [rowToJob 0 "t0" (mkRow "engineer" "u1")] := by
  refine ⟨?_, ?_, ?_, ?_⟩ <;> decide

lemma applyUpdate_id (u : JobUpdate) (today : String) (j : Job) :
    (applyUpdate u today j).id = j.id := by
  cases hc : u.checked <;> cases hs : u.status <;> cases hn : u.notes <;>
    simp [applyUpdate, hc, hs, hn]

lemma applyUpdate_job_url (u : JobUpdate) (today : String) (j : Job) :
    (applyUpdate u today j).job_url = j.job_url := by
  cases hc : u.checked <;> cases hs : u.status <;> cases hn : u.notes <;>
    simp [applyUpdate, hc, hs, hn]

lemma applyUpdate_applied_at_some (u : JobUpdate) (today : String) (j : Job)
    (s : String) (hs : u.status = some s) :
    (applyUpdate u today j).applied_at =
      if s = "applied" then some today else none := by
  cases hc : u.checked <;> cases hn : u.notes <;> simp [applyUpdate, hs, hc, hn]

lemma applyUpdate_applied_at_none (u : JobUpdate) (today : String) (j : Job)
    (hs : u.status = none) :
    (applyUpdate u today j).applied_at = j.applied_at := by
  cases hc : u.checked <;> cases hn : u.notes <;> simp [applyUpdate, hs, hc, hn]

lemma update_job_ok_shape (job_id : Nat) (u : JobUpdate) (today : String)
    (db db2 : Store) (hok : update_job job_id u today db = .ok db2) :
    db2 = db.map (fun j => if j.id == job_id then applyUpdate u today j else j) := by
  unfold update_job at hok
  split at hok
  · simp at hok
  · split at hok
    · injection hok with h
      exact h.symm
    · simp at hok

/-- C3: after an update that supplies a status, the updated record's
`applied_at` equals today's date exactly when the supplied status is
`"applied"` — overwriting any prior value even when the status value
did not change — and is NULL for any other status; an update that does
not supply a status leaves the whole `applied_at` column pointwise
unchanged (record by record, in place); records with a different id
are untouched. -/
theorem c3_applied_at_recomputed_with_status (job_id : Nat) (u : JobUpdate)
    (today : String) (db db2 : Store)
    (hok : update_job job_id u today db = .ok db2) :
    (∀ s, u.status = some s → ∀ j2 ∈ db2, j2.id = job_id →
        j2.applied_at = (if s = "applied" then some today else none)) ∧
    (u.status = none →
        db2.map (fun j => j.applied_at) = db.map (fun j => j.applied_at)) ∧
    (∀ j2 ∈ db2, j2.id ≠ job_id → j2 ∈ db) := by
  have hshape := update_job_ok_shape job_id u today db db2 hok
  subst hshape
  refine ⟨?_, ?_, ?_⟩
  · intro s hs j2 hj2 hid
    obtain ⟨j, hj, rfl⟩ := List.mem_map.mp hj2
    by_cases h : j.id = job_id
    · simp only [h, beq_self_eq_true, if_true]
      exact applyUpdate_applied_at_some u today j s hs
    · simp only [beq_eq_false_iff_ne.mpr h, if_false] at hid
      exact absurd hid h
  · intro hs
    rw [List.map_map]
    apply List.map_congr_left
    intro j _
    simp only [Function.comp_apply]
    by_cases h : j.id = job_id
    · simp only [h, beq_self_eq_true, if_true]
      exact applyUpdate_applied_at_none u today j hs
    · simp [beq_eq_false_iff_ne.mpr h]
  · intro j2 hj2 hne
    obtain ⟨j, hj, rfl⟩ := List.mem_map.mp hj2
    by_cases h : j.id = job_id
    · exfalso
      apply hne
      simp only [h, beq_self_eq_true, if_true]
      rw [applyUpdate_id, h]
    · simpa [beq_eq_false_iff_ne.mpr h] using hj

/-- Witness for C3 at concrete inputs: marking `job0` (id 1) as applied
on 2026-02-03 stamps `applied_at` with that date, and a notes-only
update of `job0` leaves the `applied_at` column exactly as it was. -/
theorem c3_witness :
    (applyUpdate updApplied "2026-02-03" job0).applied_at = some "2026-02-03" ∧
    ([applyUpdate { notes := some "called them" } "2026-02-03" job0].map
        (fun j => j.applied_at) = [job0].map (fun j => j.applied_at)) := by
  constructor
  · have h := (c3_applied_at_recomputed_with_status 1 updApplied "2026-02-03"
        [job0] [applyUpdate updApplied "2026-02-03" job0] (by decide)).1
        "applied" rfl (applyUpdate updApplied "2026-02-03" job0) (by simp)
        (by decide)
    simpa using h
  · exact (c3_applied_at_recomputed_with_status 1
      { notes := some "called them" } "2026-02-03" [job0]
      [applyUpdate { notes := some "called them" } "2026-02-03" job0]
      (by decide)).2.1 rfl

lemma insertLoop_filter_ne_new (mk : Nat → String → Row → Job)
    (hmk : ∀ n s r, (mk n s r).status = "new") (created : String) :
    ∀ (rows : List Row) (db : Store) (nid : Nat),
      ((insertLoop mk created rows db nid).1).filter (fun j => j.status != "new") =
        db.filter (fun j => j.status != "new")
  | [], db, nid => rfl
  | r :: rs, db, nid => by
    simp only [insertLoop]
    rw [insertLoop_filter_ne_new mk hmk created rs]
    unfold insertRow
    split
    · rfl
    · rw [List.filter_append]
      simp [hmk]

lemma insertLoop_mem (mk : Nat → String → Row → Job) (created : String) :
    ∀ (rows : List Row) (db : Store) (nid : Nat) (j : Job),
      j ∈ (insertLoop mk created rows db nid).1 →
        j ∈ db ∨ ∃ r ∈ rows, ∃ n, j = mk n created r
  | [], db, nid, j, hj => .inl hj
  | r :: rs, db, nid, j, hj => by
    simp only [insertLoop] at hj
    rcases insertLoop_mem mk created rs _ _ j hj with h | ⟨r2, hr2, n, rfl⟩
    · unfold insertRow at h
      split at h
      · exact .inl h
      · rcases List.mem_append.mp h with h | h
        · exact .inl h
        · rcases List.mem_singleton.mp h with rfl
          exact .inr ⟨r, List.mem_cons_self r rs, nid, rfl⟩
    · exact .inr ⟨r2, List.mem_cons_of_mem r hr2, n, rfl⟩

lemma scrape_ok_nonempty_store (ek : Option String) (rw : Nat)
    (rows : List Row) (created : String) (db : Store) (nid : Nat)
    (h : rows.isEmpty = false) :
    (scrape_new_jobs ek rw (.ok rows) created db nid).2.1 =
      (insertLoop rowToJob created
        ((((rows.filter (fun r => !titleExcluded (parseKeywords ek) r.title)).insertionSort
            RowOrd).take rw).filter
          (fun r => !((db.filter (fun j => j.status != "new")).map
              (fun j => j.job_url)).contains r.job_url))
        (db.filter (fun j => j.status != "new")) nid).1 := by
  simp only [scrape_new_jobs, h]
  rfl

/-- C2: reconciliation never deletes, overwrites, or duplicates a
record whose status is not `"new"` — the sub-table of curated records
is exactly the same after the call — and every newly inserted record
has status `"new"` and a URL distinct from every curated record's URL
(a provider record whose URL equals a curated record's URL is never
inserted). -/
theorem c2_curated_records_preserved (ek : Option String) (rw : Nat)
    (pr : Except String (List Row)) (created : String) (db : Store) (nid : Nat) :
    ((scrape_new_jobs ek rw pr created db nid).2.1.filter
        (fun j => j.status != "new") = db.filter (fun j => j.status != "new")) ∧
    (∀ j ∈ (scrape_new_jobs ek rw pr created db nid).2.1, j ∉ db →
      j.status = "new" ∧
        j.job_url ∉ (db.filter (fun j => j.status != "new")).map
          (fun j => j.job_url)) := by
  cases pr with
  | error e => exact ⟨rfl, fun j hj hnj => absurd hj hnj⟩
  | ok rows =>
    by_cases hE : rows.isEmpty = true
    · constructor
      · simp [scrape_new_jobs, hE]
      · intro j hj hnj
        simp [scrape_new_jobs, hE] at hj
        exact absurd hj hnj
    · rw [Bool.not_eq_true] at hE
      have hshape := scrape_ok_nonempty_store ek rw rows created db nid hE
      constructor
      · rw [hshape, insertLoop_filter_ne_new rowToJob (fun n s r => rfl) created,
          List.filter_filter]
        exact List.filter_congr (fun a _ => by cases h : (a.status != "new") <;> simp [h])
      · intro j hj hnj
        rw [hshape] at hj
        rcases insertLoop_mem rowToJob created _ _ _ j hj with h | ⟨r, hr, n, rfl⟩
        · exact absurd (List.mem_of_mem_filter h) hnj
        · refine ⟨rfl, ?_⟩
          have hr2 := List.of_mem_filter hr
          intro hmem
          simp only [Bool.not_eq_eq_eq_not, Bool.not_true, List.contains,
            List.elem_eq_mem, decide_eq_false_iff_not] at hr2
          exact hr2 hmem

/-- Witness for C2 at a concrete input: a store holding the applied
record `jobApplied` (URL u1), with the provider returning one row for a
fresh URL u2 — the curated sub-table is untouched and the inserted
record is a `"new"` record whose URL is not u1. -/
theorem c2_witness :
    ((scrape_new_jobs none 10 (.ok [mkRow "engineer" "u2"]) "t0"
        [jobApplied] 5).2.1.filter (fun j => j.status != "new") =
      [jobApplied].filter (fun j => j.status != "new")) ∧
    ((rowToJob 5 "t0" (mkRow "engineer" "u2")).status = "new" ∧
      (rowToJob 5 "t0" (mkRow "engineer" "u2")).job_url ∉
        ([jobApplied].filter (fun j => j.status != "new")).map
          (fun j => j.job_url)) := by
  have h := c2_curated_records_preserved none 10 (.ok [mkRow "engineer" "u2"])
    "t0" [jobApplied] 5
  exact ⟨h.1, h.2 (rowToJob 5 "t0" (mkRow "engineer" "u2")) (by decide) (by decide)⟩

lemma insertLoop_urlsNodup (mk : Nat → String → Row → Job)
    (hmk : ∀ n s r, (mk n s r).job_url = r.job_url) (created : String) :
    ∀ (rows : List Row) (db : Store) (nid : Nat),
      urlsNodup db → urlsNodup (insertLoop mk created rows db nid).1
  | [], db, nid, h => h
  | r :: rs, db, nid, h => by
    simp only [insertLoop]
    apply insertLoop_urlsNodup mk hmk created rs
    unfold insertRow
    split
    · exact h
    · rename_i hany
      rw [Bool.not_eq_true, List.any_eq_false] at hany
      simp only [urlsNodup, List.map_append, List.map_cons, List.map_nil]
      rw [List.nodup_append]
      refine ⟨h, List.nodup_singleton _, ?_⟩
      intro u hu hu2
      rcases List.mem_map.mp hu with ⟨j, hj, rfl⟩
      rcases List.mem_singleton.mp hu2 with hurl
      have := hany j hj
      rw [hmk] at hurl
      simp [hurl] at this

lemma map_url_update (db : Store) (job_id : Nat) (u : JobUpdate)
    (today : String) :
    (db.map (fun j => if j.id == job_id then applyUpdate u today j else j)).map
        (fun j => j.job_url) = db.map (fun j => j.job_url) := by
  rw [List.map_map]
  apply List.map_congr_left
  intro j _
  by_cases h : j.id = job_id <;> simp [h, applyUpdate_job_url]

lemma stepOp_urlsNodup (st : Store × Nat) (op : Op) (h : urlsNodup st.1) :
    urlsNodup (stepOp st op).1 := by
  cases op with
  | patch job_id u today =>
    simp only [stepOp]
    cases heq : update_job job_id u today st.1 with
    | ok db2 =>
      have hshape := update_job_ok_shape job_id u today st.1 db2 heq
      subst hshape
      simpa only [urlsNodup, map_url_update] using h
    | error e => exact h
  | del job_id =>
    simp only [stepOp]
    cases heq : delete_job job_id st.1 with
    | ok db2 =>
      unfold delete_job at heq
      split at heq
      · injection heq with h2
        subst h2
        exact List.Nodup.sublist (List.Sublist.map _ (List.filter_sublist _)) h
      · simp at heq
    | error e => exact h
  | scrape ek rw pr created =>
    simp only [stepOp]
    cases pr with
    | error e => exact h
    | ok rows =>
      by_cases hE : rows.isEmpty = true
      · simpa [scrape_new_jobs, hE] using h
      · rw [Bool.not_eq_true] at hE
        rw [scrape_ok_nonempty_store ek rw rows created st.1 st.2 hE]
        apply insertLoop_urlsNodup rowToJob (fun n s r => rfl) created
        exact List.Nodup.sublist (List.Sublist.map _ (List.filter_sublist _)) h
  | importCsv rows created =>
    simp only [stepOp]
    cases rows with
    | none => exact h
    | some rs =>
      simp only [import_csv]
      exact insertLoop_urlsNodup rowToJobCsv (fun n s r => rfl) created rs st.1 st.2 h

/-- C4: starting from a store with pairwise-distinct `job_url` values,
no sequence of update, delete, reconcile, and CSV-import calls ever
produces two records sharing a `job_url`; moreover an insert attempt
whose URL is already present is a strict no-op, returning the store
(and the id counter) exactly as they were. -/
theorem c4_url_uniqueness (ops : List Op) (st : Store × Nat)
    (h : urlsNodup st.1) :
    urlsNodup (runOps st ops).1 ∧
    ∀ (mk : Nat → String → Row → Job) (created : String) (db : Store)
      (nid : Nat) (r : Row), (∃ j ∈ db, j.job_url = r.job_url) →
        insertRow mk created db nid r = (db, nid) := by
  constructor
  · induction ops generalizing st with
    | nil => exact h
    | cons op ops ih => exact ih (stepOp st op) (stepOp_urlsNodup st op h)
  · intro mk created db nid r ⟨j, hj, hurl⟩
    unfold insertRow
    rw [if_pos]
    rw [List.any_eq_true]
    exact ⟨j, hj, by simp [hurl]⟩

/-- Witness for C4 at a concrete input: the three-call sequence `ops0`
run from the empty store keeps URLs unique, and re-inserting URL u1
into a store that already holds u1 is a no-op. -/
theorem c4_witness :
    urlsNodup (runOps ([], 0) ops0).1 ∧
    insertRow rowToJob "t0" [rowToJob 0 "t0" (mkRow "engineer" "u1")] 5
        (mkRow "tester" "u1") =
      ([rowToJob 0 "t0" (mkRow "engineer" "u1")], 5) := by
  have h := c4_url_uniqueness ops0 ([], 0) (by simp [urlsNodup])
  exact ⟨h.1, h.2 rowToJob "t0" _ 5 _
    ⟨rowToJob 0 "t0" (mkRow "engineer" "u1"), by simp, rfl⟩⟩

lemma charToNat_inj {a b : Char} (h : a.toNat = b.toNat) : a = b :=
  Char.eq_of_val_eq (UInt32.toNat.inj h)

lemma stringData_inj {s t : String} (h : s.data = t.data) : s = t := by
  cases s
  cases t
  exact congrArg String.mk h

lemma charListLt_irrefl : ∀ a : List Char, charListLt a a = false
  | [] => rfl
  | c :: cs => by simp [charListLt, charListLt_irrefl cs]

lemma charListLt_trans :
    ∀ a b c : List Char, charListLt a b = true → charListLt b c = true →
      charListLt a c = true
  | [], [], _, h1, _ => by simp [charListLt] at h1
  | [], _ :: _, [], _, h2 => by simp [charListLt] at h2
  | [], _ :: _, _ :: _, _, _ => rfl
  | _ :: _, [], _, h1, _ => by simp [charListLt] at h1
  | _ :: _, _ :: _, [], _, h2 => by simp [charListLt] at h2
  | x :: xs, y :: ys, z :: zs, h1, h2 => by
    simp only [charListLt] at h1 h2 ⊢
    by_cases hxy : x.toNat = y.toNat <;> by_cases hyz : y.toNat = z.toNat
    · rw [if_pos hxy] at h1
      rw [if_pos hyz] at h2
      rw [if_pos (hxy.trans hyz)]
      exact charListLt_trans xs ys zs h1 h2
    · rw [if_pos hxy] at h1
      rw [if_neg hyz] at h2
      rw [if_neg (fun e => hyz (hxy ▸ e)), decide_eq_true_eq] at *
      omega
    · rw [if_neg hxy, decide_eq_true_eq] at h1
      rw [if_pos hyz] at h2
      rw [if_neg (fun e => hxy (hyz ▸ e)), decide_eq_true_eq]
      omega
    · rw [if_neg hxy, decide_eq_true_eq] at h1
      rw [if_neg hyz, decide_eq_true_eq] at h2
      have hxz : x.toNat < z.toNat := Nat.lt_trans h1 h2
      rw [if_neg (fun e => Nat.lt_irrefl _ (e ▸ hxz)), decide_eq_true_eq]
      exact hxz

lemma charListLt_trichot :
    ∀ a b : List Char, a = b ∨ charListLt a b = true ∨ charListLt b a = true
  | [], [] => .inl rfl
  | [], _ :: _ => .inr (.inl rfl)
  | _ :: _, [] => .inr (.inr rfl)
  | x :: xs, y :: ys => by
    by_cases h : x.toNat = y.toNat
    · rcases charListLt_trichot xs ys with rfl | h2 | h2
      · exact .inl (by rw [charToNat_inj h])
      · exact .inr (.inl (by simp [charListLt, h, h2]))
      · exact .inr (.inr (by simp [charListLt, h.symm, h2]))
    · rcases Nat.lt_or_ge x.toNat y.toNat with hlt | hge
      · exact .inr (.inl (by simp [charListLt, h, hlt]))
      · have hgt : y.toNat < x.toNat := Nat.lt_of_le_of_ne hge (fun e => h e.symm)
        have h2 : ¬ y.toNat = x.toNat := fun e => h e.symm
        exact .inr (.inr (by simp [charListLt, h2, hgt]))

lemma charListLe_total :
    ∀ a b : List Char, charListLe a b = true ∨ charListLe b a = true
  | [], _ => .inl rfl
  | _ :: _, [] => .inr rfl
  | x :: xs, y :: ys => by
    by_cases h : x.toNat = y.toNat
    · rcases charListLe_total xs ys with h2 | h2
      · exact .inl (by simp [charListLe, h, h2])
      · exact .inr (by simp [charListLe, h.symm, h2])
    · rcases Nat.lt_or_ge x.toNat y.toNat with hlt | hge
      · exact .inl (by simp [charListLe, h, hlt])
      · have hgt : y.toNat < x.toNat := Nat.lt_of_le_of_ne hge (fun e => h e.symm)
        have h2 : ¬ y.toNat = x.toNat := fun e => h e.symm
        exact .inr (by simp [charListLe, h2, hgt])

lemma charListLe_trans :
    ∀ a b c : List Char, charListLe a b = true → charListLe b c = true →
      charListLe a c = true
  | [], _, _, _, _ => rfl
  | _ :: _, [], _, h1, _ => by simp [charListLe] at h1
  | _ :: _, _ :: _, [], _, h2 => by simp [charListLe] at h2
  | x :: xs, y :: ys, z :: zs, h1, h2 => by
    simp only [charListLe] at h1 h2 ⊢
    by_cases hxy : x.toNat = y.toNat <;> by_cases hyz : y.toNat = z.toNat
    · rw [if_pos hxy] at h1
      rw [if_pos hyz] at h2
      rw [if_pos (hxy.trans hyz)]
      exact charListLe_trans xs ys zs h1 h2
    · rw [if_neg hyz, decide_eq_true_eq] at h2
      rw [if_neg (fun e => hyz (hxy ▸ e)), decide_eq_true_eq]
      omega
    · rw [if_neg hxy, decide_eq_true_eq] at h1
      rw [if_neg (fun e => hxy (hyz ▸ e)), decide_eq_true_eq]
      omega
    · rw [if_neg hxy, decide_eq_true_eq] at h1
      rw [if_neg hyz, decide_eq_true_eq] at h2
      have hxz : x.toNat < z.toNat := Nat.lt_trans h1 h2
      rw [if_neg (fun e => Nat.lt_irrefl _ (e ▸ hxz)), decide_eq_true_eq]
      exact hxz

lemma jobLe_total (a b : Job) : jobLe a b = true ∨ jobLe b a = true := by
  cases ha : a.date_posted with
  | none =>
    cases hb : b.date_posted with
    | none =>
      simp only [jobLe, ha, hb]
      exact charListLe_total _ _
    | some dbv =>
      simp only [jobLe, ha, hb]
      exact .inr trivial
  | some da =>
    cases hb : b.date_posted with
    | none =>
      simp only [jobLe, ha, hb]
      exact .inl trivial
    | some dbv =>
      simp only [jobLe, ha, hb]
      by_cases h : da = dbv
      · rw [if_pos h, if_pos h.symm]
        exact charListLe_total _ _
      · have h2 : ¬ dbv = da := fun e => h e.symm
        rw [if_neg h, if_neg h2]
        rcases charListLt_trichot dbv.data da.data with he | hx | hx
        · exact absurd (stringData_inj he).symm h
        · exact .inl hx
        · exact .inr hx

lemma jobLe_trans (a b c : Job) (h1 : jobLe a b = true) (h2 : jobLe b c = true) :
    jobLe a c = true := by
  cases ha : a.date_posted with
  | none =>
    cases hb : b.date_posted with
    | none =>
      cases hc : c.date_posted with
      | none =>
        simp only [jobLe, ha, hb] at h1
        simp only [jobLe, hb, hc] at h2
        simp only [jobLe, ha, hc]
        exact charListLe_trans _ _ _ h2 h1
      | some dc =>
        simp only [jobLe, hb, hc] at h2
        exact absurd h2 Bool.false_ne_true
    | some dbv =>
      simp only [jobLe, ha, hb] at h1
      exact absurd h1 Bool.false_ne_true
  | some da =>
    cases hc : c.date_posted with
    | none => simp only [jobLe, ha, hc]
    | some dc =>
      cases hb : b.date_posted with
      | none =>
        simp only [jobLe, hb, hc] at h2
        exact absurd h2 Bool.false_ne_true
      | some dbv =>
        simp only [jobLe, ha, hb] at h1
        simp only [jobLe, hb, hc] at h2
        simp only [jobLe, ha, hc]
        by_cases hab : da = dbv <;> by_cases hbc : dbv = dc
        · rw [if_pos hab] at h1
          rw [if_pos hbc] at h2
          rw [if_pos (hab.trans hbc)]
          exact charListLe_trans _ _ _ h2 h1
        · rw [if_pos hab] at h1
          rw [if_neg hbc] at h2
          rw [if_neg (fun e => hbc (hab ▸ e)), hab]
          exact h2
        · rw [if_neg hab] at h1
          rw [if_pos hbc] at h2
          have hne : ¬ da = dc := fun e => hab (e.trans hbc.symm)
          rw [if_neg hne, ← hbc]
          exact h1
        · rw [if_neg hab] at h1
          rw [if_neg hbc] at h2
          have hlt := charListLt_trans dc.data dbv.data da.data h2 h1
          have hne : ¬ da = dc := by
            intro e
            rw [e] at hlt
            rw [charListLt_irrefl] at hlt
            exact Bool.false_ne_true hlt
          rw [if_neg hne]
          exact hlt

instance : IsTotal Job JobOrd := ⟨jobLe_total⟩

instance : IsTrans Job JobOrd := ⟨jobLe_trans⟩

/-- C8: `get_jobs` returns the full matching set — the result is a
permutation of the rows passing the filters, with the reported total
equal to its length, so no pagination occurs — ordered by the
`ORDER BY date_posted DESC, created_at DESC` relation `JobOrd`; a row
with NULL `date_posted` never precedes a row with a date, so NULL
dates sort last. -/
theorem c8_full_result_sorted (status : Option String) (checked : Option Bool)
    (search : Option String) (db : Store) :
    ((get_jobs status checked search db).2 =
        (get_jobs status checked search db).1.length) ∧
    List.Perm (get_jobs status checked search db).1
      (db.filter (jobMatches status checked search)) ∧
    List.Sorted JobOrd (get_jobs status checked search db).1 ∧
    (∀ a b : Job, a.date_posted = none → b.date_posted ≠ none →
      ¬ JobOrd a b) := by
  refine ⟨rfl, List.perm_insertionSort JobOrd _,
    List.sorted_insertionSort JobOrd _, ?_⟩
  intro a b ha hb
  cases hbd : b.date_posted with
  | none => exact absurd hbd hb
  | some d =>
    intro hord
    unfold JobOrd at hord
    simp only [jobLe, ha, hbd] at hord
    exact Bool.false_ne_true hord

/-- Witness for C8 at a concrete input: the reported total matches, and
the NULL-dated `job0` may not precede the dated scrape record. -/
theorem c8_witness :
    ((get_jobs none none none [job0]).2 =
        (get_jobs none none none [job0]).1.length) ∧
    ¬ JobOrd job0 (rowToJob 0 "t0" (mkRow "engineer" "u1")) := by
  have h := c8_full_result_sorted none none none [job0]
  exact ⟨h.1, h.2.2.2 job0 (rowToJob 0 "t0" (mkRow "engineer" "u1")) rfl
    (by decide)⟩

lemma reHere_map_lit : ∀ (p s : List Char),
    reHere (p.map RTok.lit) s = prefixHere p s
  | [], _ => rfl
  | _ :: _, [] => rfl
  | a :: ps, b :: cs => by
    simp only [List.map_cons, reHere, prefixHere, tokMatch]
    rw [reHere_map_lit ps cs]

lemma reFind_map_lit : ∀ (p s : List Char),
    reFind (p.map RTok.lit) s = substrFind p s
  | p, [] => by simp only [reFind, substrFind, reHere_map_lit]
  | p, c :: cs => by
    simp only [reFind, substrFind, reHere_map_lit, reFind_map_lit p cs]

lemma toPattern_of_no_dot (k : List Char) (h : '.' ∉ k) :
    toPattern k = k.map RTok.lit := by
  unfold toPattern
  apply List.map_congr_left
  intro c hc
  rw [if_neg]
  intro e
  exact h (e ▸ hc)

lemma reFind_eq_substr_of_no_dot (k t : List Char) (h : '.' ∉ k) :
    reFind (toPattern k) t = substrFind k t := by
  rw [toPattern_of_no_dot k h, reFind_map_lit]

lemma anyCongr {α : Type} (l : List α) (f g : α → Bool)
    (h : ∀ x ∈ l, f x = g x) : l.any f = l.any g := by
  induction l with
  | nil => rfl
  | cons x xs ih =>
    simp only [List.any_cons]
    rw [h x (List.mem_cons_self x xs),
      ih (fun y hy => h y (List.mem_cons_of_mem x hy))]

lemma orIff {a b : Bool} : (a || b) = true ↔ a = true ∨ b = true := by
  cases a <;> simp

lemma prefixHere_of_append : ∀ (p q s : List Char),
    prefixHere (p ++ q) s = true → prefixHere p s = true
  | [], _, _, _ => rfl
  | a :: ps, q, [], h => by simp [prefixHere] at h
  | a :: ps, q, b :: cs, h => by
    simp only [List.cons_append, prefixHere, Bool.and_eq_true] at h ⊢
    exact ⟨h.1, prefixHere_of_append ps q cs h.2⟩

lemma substrFind_of_append : ∀ (p q s : List Char),
    substrFind (p ++ q) s = true → substrFind p s = true
  | p, q, [], h => by
    simp only [substrFind] at h ⊢
    exact prefixHere_of_append p q [] h
  | p, q, c :: cs, h => by
    simp only [substrFind] at h ⊢
    rcases orIff.mp h with h1 | h2
    · exact orIff.mpr (.inl (prefixHere_of_append p q _ h1))
    · exact orIff.mpr (.inr (substrFind_of_append p q cs h2))

lemma srdot_find_imp : ∀ t : List Char,
    reFind (toPattern "sr.".data) t = true → substrFind "sr".data t = true := by
  intro t
  show reFind [RTok.lit 's', RTok.lit 'r', RTok.dot] t = true →
      substrFind ['s', 'r'] t = true
  induction t with
  | nil => intro h; exact absurd h (by decide)
  | cons c cs ih =>
    intro h
    simp only [reFind] at h
    rcases orIff.mp h with h1 | h2
    · cases cs with
      | nil => simp [reHere, tokMatch] at h1
      | cons c2 cs2 =>
        cases cs2 with
        | nil => simp [reHere, tokMatch] at h1
        | cons c3 cs3 =>
          simp only [reHere, tokMatch, Bool.and_eq_true, decide_eq_true_eq] at h1
          obtain ⟨hs, hr, -⟩ := h1
          show substrFind ['s', 'r'] (c :: c2 :: c3 :: cs3) = true
          simp only [substrFind]
          apply orIff.mpr
          left
          simp only [prefixHere, Bool.and_eq_true, decide_eq_true_eq]
          exact ⟨hs, hr, by simp [prefixHere]⟩
    · simp only [substrFind]
      exact orIff.mpr (.inr (ih h2))

lemma srdotlit_imp (t : List Char) :
    substrFind "sr.".data t = true → substrFind "sr".data t = true := by
  intro h
  exact substrFind_of_append "sr".data ['.'] t h

lemma or_absorb (a b r : Bool) (h : a = true → b = true) :
    (a || (b || r)) = (b || r) := by
  cases a with
  | false => simp
  | true => simp [h rfl]

lemma default_excl_eq (t : List Char) :
    (defaultKeywords.map (fun k => k.data)).any (fun k => reFind (toPattern k) t) =
      (defaultKeywords.map (fun k => k.data)).any (fun k => substrFind k t) := by
  simp only [defaultKeywords, List.map_cons, List.map_nil, List.any_cons,
    List.any_nil]
  rw [reFind_eq_substr_of_no_dot "senior".data t (by decide),
    reFind_eq_substr_of_no_dot "sr".data t (by decide),
    reFind_eq_substr_of_no_dot "lead".data t (by decide),
    reFind_eq_substr_of_no_dot "principal".data t (by decide),
    reFind_eq_substr_of_no_dot "staff".data t (by decide),
    reFind_eq_substr_of_no_dot "manager".data t (by decide),
    reFind_eq_substr_of_no_dot "architect".data t (by decide),
    reFind_eq_substr_of_no_dot "head".data t (by decide),
    reFind_eq_substr_of_no_dot "director".data t (by decide)]
  congr 1
  rw [or_absorb (reFind (toPattern "sr.".data) t) _ _ (srdot_find_imp t),
    or_absorb (substrFind "sr.".data t) _ _ (srdotlit_imp t)]

/-- C7: the claim fails on the code as stated.  `Series.str.contains`
treats `'|'.join(keywords)` as a regular expression, not as literal
substrings: with caller-supplied `exclude_keywords = "a.c"` the title
`"abc"` is excluded (the `.` matches `b`) although `"a.c"` is not a
substring of `"abc"`, so the corresponding provider record is dropped
by the reconciliation. -/
theorem c7_counterexample :
    titleExcluded (parseKeywords (some "a.c")) "abc" = true ∧
    titleExcludedSpec (parseKeywords (some "a.c")) "abc" = false ∧
    (scrape_new_jobs (some "a.c") 10 (.ok [mkRow "abc" "u7"]) "t0" [] 0).1 =
      .ok { added := 0, skipped := 0, deleted := some 0,
            total_found := some 0 } := by
  refine ⟨?_, ?_, ?_⟩ <;> decide

/-- C7 (amended): exclusion keywords are interpreted as a
case-insensitive regular-expression alternation rather than literal
substrings.  For every keyword list free of regex metacharacters the
excluded set coincides exactly with case-insensitive substring
containment, and the same holds for the fixed default list — its only
metacharacter is the `.` of `"sr."`, whose regex matches are subsumed
by the plain `"sr"` keyword. -/
theorem c7_exclusion_regex_vs_substring (kws : List (List Char))
    (title : String) (hdot : ∀ k ∈ kws, '.' ∉ k) :
    titleExcluded kws title = titleExcludedSpec kws title ∧
    titleExcluded (parseKeywords none) title =
      titleExcludedSpec (parseKeywords none) title := by
  constructor
  · unfold titleExcluded titleExcludedSpec
    apply anyCongr
    intro k hk
    exact reFind_eq_substr_of_no_dot k _ (hdot k hk)
  · simp only [titleExcluded, titleExcludedSpec, parseKeywords]
    exact default_excl_eq (lowerChars title.data)

/-- Witness for C7 at a concrete input: for the metacharacter-free
keyword list of just `"qa"`, the regex filter and the substring filter
agree on the title `"qa tester"`. -/
theorem c7_witness :
    titleExcluded [['q', 'a']] "qa tester" =
      titleExcludedSpec [['q', 'a']] "qa tester" :=
  (c7_exclusion_regex_vs_substring [['q', 'a']] "qa tester" (by decide)).1
